import Mathlib

/-!
Verification of `scripts/excel_compare.py` (class `ExcelCompare`).

The script diffs two Excel workbooks with pandas.  We embed the parts the
claims are about: a `DataFrame` is a list of named columns plus rows, each
row carrying its index label and its cell values; a workbook (as returned
by `pd.read_excel(path, sheet_name=None)`) is an ordered mapping from sheet
name to frame, modelled as an association list whose names are distinct.
Cell values and index labels are strings (the algorithms only ever test
them for equality); the freshly-read positional `RangeIndex` is rendered as
the decimal strings "0", "1", ….  Fallible pandas operations are modelled
in `Except String`, the error string naming the Python exception.
-/

namespace ExcelCompare

/-- A pandas DataFrame as the script uses one: the column names in order,
and the rows, each as (index label, cell values aligned with `cols`). -/
structure DataFrame where
  cols : List String
  rows : List (String × List String)
deriving Repr, DecidableEq

/-- The frame's index: the labels of its rows, in order. -/
def keys (df : DataFrame) : List String := df.rows.map Prod.fst

/-- Label-based row selection, `df.loc[labels]`: each label in turn selects
every row bearing it, in frame order — so a label duplicated in the frame
contributes all its rows at each of its occurrences in `labels`. -/
def locList (df : DataFrame) (labels : List String) : List (String × List String) :=
  labels.flatMap fun k => df.rows.filter fun r => r.1 == k

/-- The value a row holds in column `c` (`cols` are the frame's column
names, `vals` the row's cells). -/
def colVal (cols : List String) (vals : List String) (c : String) : String :=
  match cols.findIdx? (fun c2 => c2 == c) with
  | some j => vals.getD j ""
  | none => ""

/-- `df1.columns.symmetric_difference(df2.columns)`: the column names in
exactly one of the two frames.  (pandas returns these sorted; only
membership is read downstream, so the order here is immaterial.) -/
def symmDiffCols (c1 c2 : List String) : List String :=
  c1.filter (fun c => !(decide (c ∈ c2))) ++ c2.filter (fun c => !(decide (c ∈ c1)))

/-- The column set `delete_ignored_and_conflicting_cols` drops, line 119:
`df1.columns.symmetric_difference(df2.columns).union(self.ignored_cols)`.
(pandas `Index.union`; only membership is read, so `++` serves.) -/
def cols_to_delete (df1 df2 : DataFrame) (ignored_cols : List String) : List String :=
  symmDiffCols df1.cols df2.cols ++ ignored_cols

/-- `df.drop(df.columns.intersection(drop), axis=1)`: removes every column
whose name is in `drop`, leaving row labels untouched. -/
def dropCols (df : DataFrame) (drop : List String) : DataFrame :=
  { cols := df.cols.filter fun c => !(decide (c ∈ drop)),
    rows := df.rows.map fun r =>
      (r.1, ((df.cols.zip r.2).filter (fun p => !(decide (p.1 ∈ drop)))).map Prod.snd) }

/-- `ExcelCompare.delete_ignored_and_conflicting_cols` (lines 115–123):
drops the ignored and the non-common columns from both frames.  The Python
method mutates its two arguments in place; the mutation is modelled by
returning the two updated frames. -/
def delete_ignored_and_conflicting_cols (ignored_cols : List String)
    (df1 df2 : DataFrame) : DataFrame × DataFrame :=
  (dropCols df1 (cols_to_delete df1 df2 ignored_cols),
   dropCols df2 (cols_to_delete df1 df2 ignored_cols))

/-- The `_merge` indicator of `pd.merge(..., indicator=True)`. -/
inductive MergeTag
  | both
  | left_only
  | right_only
deriving Repr, DecidableEq

/-- Byte-wise order on characters, for sorting merge keys. -/
def charLeB (a b : Char) : Bool := a.toNat ≤ b.toNat

/-- Lexicographic order on character lists. -/
def lexLeB : List Char → List Char → Bool
  | [], _ => true
  | _ :: _, [] => false
  | a :: as, b :: bs => if a = b then lexLeB as bs else charLeB a b

/-- Lexicographic order on strings.  (Lean's own `String.ltb` is opaque to
the kernel, so an executable equivalent is spelled out.) -/
def strLeB (a b : String) : Bool := lexLeB a.data b.data

/-- The distinct key values of the outer merge: `how="outer"` takes the
union of the two indexes and sorts it. -/
def mergedKeys (dfo dfn : DataFrame) : List String :=
  List.insertionSort (fun a b => strLeB a b = true) ((keys dfo ++ keys dfn).dedup)

/-- `pd.merge(df_old, df_new, on=index, how="outer", indicator=True)`
(lines 72–74), reduced to what the script reads from the merged frame: its
index labels with their `_merge` tag, grouped by key.  A key on both sides
yields one merged row per (left row, right row) pair; a one-sided key
yields one merged row per row bearing it. -/
def mergedIndex (dfo dfn : DataFrame) : List (String × MergeTag) :=
  (mergedKeys dfo dfn).flatMap fun k =>
    if (keys dfo).count k = 0 then
      List.replicate ((keys dfn).count k) (k, MergeTag.right_only)
    else if (keys dfn).count k = 0 then
      List.replicate ((keys dfo).count k) (k, MergeTag.left_only)
    else
      List.replicate ((keys dfo).count k * (keys dfn).count k) (k, MergeTag.both)

/-- `df_merged.index[df_merged["_merge"] == "both"]` (line 77). -/
def df_idx_in_both (dfo dfn : DataFrame) : List String :=
  ((mergedIndex dfo dfn).filter fun p => decide (p.2 = MergeTag.both)).map Prod.fst

/-- `df_merged.index[df_merged["_merge"] == "left_only"]` (line 95). -/
def df_idx_in_old_only (dfo dfn : DataFrame) : List String :=
  ((mergedIndex dfo dfn).filter fun p => decide (p.2 = MergeTag.left_only)).map Prod.fst

/-- `df_merged.index[df_merged["_merge"] == "right_only"]` (line 96). -/
def df_idx_in_new_only (dfo dfn : DataFrame) : List String :=
  ((mergedIndex dfo dfn).filter fun p => decide (p.2 = MergeTag.right_only)).map Prod.fst

/-- Whether the positionally paired rows `p` differ in any of the first
`ncols` columns (a cell past a row's end reads as "", as an absent cell
would). -/
def pairDiffers (ncols : Nat) (p : (String × List String) × (String × List String)) : Bool :=
  (List.range ncols).any fun j => decide (p.1.2.getD j "" ≠ p.2.2.getD j "")

/-- The column positions `compare` keeps: those in which some pair of
positionally aligned rows differs. -/
def keptCols (d1 d2 : DataFrame) : List Nat :=
  (List.range d1.cols.length).filter fun j =>
    (d1.rows.zip d2.rows).any fun p => decide (p.1.2.getD j "" ≠ p.2.2.getD j "")

/-- The aligned row pairs `compare` keeps: those differing in some column. -/
def keptPairs (d1 d2 : DataFrame) : List ((String × List String) × (String × List String)) :=
  (d1.rows.zip d2.rows).filter (pairDiffers d1.cols.length)

/-- One cell of the changed-table: the (old, new) pair where the aligned
rows differ in column `j`, and `("", "")` — `fillna("")` on pandas's NaN —
where they agree. -/
def compareCell (j : Nat) (p : (String × List String) × (String × List String)) :
    String × String :=
  if p.1.2.getD j "" ≠ p.2.2.getD j "" then (p.1.2.getD j "", p.2.2.getD j "")
  else ("", "")

/-- `df_old_both.compare(df_new_both, result_names=...).fillna("")`
(lines 81–84).  pandas first requires the two frames to be identically
labeled — equal index lists and equal column lists — and raises
`ValueError` otherwise; then it keeps only the columns and the rows in
which some cell pair differs.  The result's columns are two-level,
`(name, old stem)` / `(name, new stem)`; the stems label but never carry
data, so the result is rendered as the kept column names plus, per kept
row, its label and its (old, new) cell pair per kept column — `("", "")`
where this row does not differ in that column, which is `fillna("")` on
the NaN pandas leaves there. -/
def compareDF (d1 d2 : DataFrame) :
    Except String (List String × List (String × List (String × String))) :=
  if keys d1 = keys d2 ∧ d1.cols = d2.cols then
    Except.ok ((keptCols d1 d2).map (fun j => d1.cols.getD j ""),
      (keptPairs d1 d2).map fun p =>
        (p.1.1, (keptCols d1 d2).map fun j => compareCell j p))
  else
    Except.error "Can only compare identically-labeled DataFrame objects"

/-- The `changed` table: a frame whose columns are two-level.  `refCols`
are the prepended reference columns, headers `(name, "-")`, one cell per
row; `diffCols` are the columns `compare` kept, headers `(name, old stem)`
and `(name, new stem)`, an (old, new) cell pair per row.  A row is its
index label, its reference cells, and its pair per kept column. -/
structure ChangedDF where
  refCols : List String
  diffCols : List String
  rows : List (String × List String × List (String × String))
deriving Repr, DecidableEq

/-- The per-sheet result dict `{"changed": .., "added": .., "deleted": ..}`. -/
structure SheetDiff where
  changed : ChangedDF
  added : DataFrame
  deleted : DataFrame
deriving Repr, DecidableEq

/-- The session configuration of an `ExcelCompare` object: `index_name`
(constructor default, the sentinel `"_index_"`), `other_ref_cols`
(constructor argument; Python's `None` is rendered as `[]`, which the
truthiness test on line 89 treats the same way) and `ignored_cols` (set by
`set_ignored_cols`, `[]` at construction). -/
structure Config where
  index_name : String
  other_ref_cols : List String
  ignored_cols : List String
deriving Repr, DecidableEq

/-- `ExcelCompare.get_sheet_diff` (lines 67–102).  Drops ignored and
conflicting columns from both frames in place, outer-merges on the index,
compares the rows whose key is on both sides (a `ValueError` out of
`compare` is re-raised as "Possibly duplicate index", lines 80–86),
prepends the reference columns to a non-empty changed-table (lines 89–93:
`df_old_both.loc[df_cell_cmp.index, self.other_ref_cols]` raises
`KeyError` on a reference column absent from the frame, and
`pd.concat(axis=1)` juxtaposes when the two indexes coincide and raises on
labels it cannot align — which, the reference rows being selected by the
changed rows' own labels, is exactly when a changed label is duplicated in
`df_old_both`), and returns added = new rows with right-only keys and
deleted = old rows with left-only keys.  The Python method returns only
the dict; its in-place column mutation is modelled by also returning the
two updated frames. -/
def df_old_both (df_old df_new : DataFrame) : DataFrame :=
  ⟨df_old.cols, locList df_old (df_idx_in_both df_old df_new)⟩

def df_new_both (df_old df_new : DataFrame) : DataFrame :=
  ⟨df_new.cols, locList df_new (df_idx_in_both df_old df_new)⟩

/-- Lines 88–93: when reference columns are configured and the cell
comparison is non-empty, select them from `df_old_both` at the changed
rows' labels (`KeyError` if one is absent from the frame), give them the
single-level `(name, "-")` headers and concatenate them to the left;
otherwise the comparison result stands as is. -/
def changedOf (cfg : Config) (dfOldRec dfOB : DataFrame) (diffCols : List String)
    (cmpRows : List (String × List (String × String))) : Except String ChangedDF :=
  if cfg.other_ref_cols ≠ [] ∧ cmpRows ≠ [] then
    if ∀ c ∈ cfg.other_ref_cols, c ∈ dfOldRec.cols then
      if (locList dfOB (cmpRows.map Prod.fst)).map Prod.fst = cmpRows.map Prod.fst then
        Except.ok ⟨cfg.other_ref_cols, diffCols,
          ((locList dfOB (cmpRows.map Prod.fst)).zip cmpRows).map fun q =>
            (q.2.1, cfg.other_ref_cols.map (colVal dfOldRec.cols q.1.2), q.2.2)⟩
      else Except.error "cannot reindex on an axis with duplicate labels"
    else Except.error "KeyError"
  else Except.ok ⟨[], diffCols, cmpRows.map fun r => (r.1, [], r.2)⟩

/-- Lines 98–102: the returned dict. -/
def resultOf (df_old df_new : DataFrame) (changed : ChangedDF) : SheetDiff :=
  { changed := changed,
    added := ⟨df_new.cols, locList df_new (df_idx_in_new_only df_old df_new)⟩,
    deleted := ⟨df_old.cols, locList df_old (df_idx_in_old_only df_old df_new)⟩ }

/-- Lines 72–102 of `get_sheet_diff`, applied to the two frames after the
in-place column reconciliation: merge, compare the both-bucket rows (a
`ValueError` out of `compare` is re-raised as "Possibly duplicate index",
lines 80–86), build the changed-table, return the dict. -/
def sheetDiffCore (cfg : Config) (df_old df_new : DataFrame) :
    Except String (DataFrame × DataFrame × SheetDiff) :=
  match compareDF (df_old_both df_old df_new) (df_new_both df_old df_new) with
  | Except.error _ => Except.error "Possibly duplicate index"
  | Except.ok (diffCols, cmpRows) =>
    match changedOf cfg df_old (df_old_both df_old df_new) diffCols cmpRows with
    | Except.error e => Except.error e
    | Except.ok changed => Except.ok (df_old, df_new, resultOf df_old df_new changed)

def get_sheet_diff (cfg : Config) (dfOld dfNew : DataFrame) :
    Except String (DataFrame × DataFrame × SheetDiff) :=
  sheetDiffCore cfg
    (delete_ignored_and_conflicting_cols cfg.ignored_cols dfOld dfNew).1
    (delete_ignored_and_conflicting_cols cfg.ignored_cols dfOld dfNew).2

/-- `df.set_index(name, inplace=True)` (lines 56–57): moves the named
column into the index, dropping it from the columns; `KeyError` when the
name is absent, `ValueError` when the label is duplicated (pandas cannot
set an index from a non-unique column label). -/
def set_index (df : DataFrame) (nm : String) : Except String DataFrame :=
  if nm ∈ df.cols then
    if df.cols.count nm = 1 then
      Except.ok ⟨df.cols.erase nm,
        df.rows.map fun r =>
          (colVal df.cols r.2 nm,
           ((df.cols.zip r.2).filter fun p => !(p.1 == nm)).map Prod.snd)⟩
    else Except.error "ValueError: duplicate column label"
  else Except.error ("KeyError: " ++ nm)

/-- The two workbooks held on the object, `self.old_excel` and
`self.new_excel`: ordered sheet-name → frame mappings (a Python dict, so
the names are distinct and insertion order is kept). -/
structure CompareState where
  old_excel : List (String × DataFrame)
  new_excel : List (String × DataFrame)
deriving Repr, DecidableEq

/-- `wb[name]` on a workbook dict, as an `Option`: `none` is Python's
`KeyError`. -/
def lookupSheet (wb : List (String × DataFrame)) (n : String) : Option DataFrame :=
  (wb.find? fun p => p.1 == n).map Prod.snd

/-- Storing a mutated frame back under its sheet name. -/
def updateSheet (wb : List (String × DataFrame)) (n : String) (df : DataFrame) :
    List (String × DataFrame) :=
  wb.map fun p => if p.1 = n then (n, df) else p

/-- One iteration of `get_excel_diff`'s loop, applied to the two frames it
reads out of the workbooks: index setup — with the `"_index_"` sentinel
the positional index is merely renamed (lines 48–54), a pure relabelling
and hence the identity here; otherwise `set_index` on the configured key
column (lines 56–57) — followed by `get_sheet_diff` (line 59). -/
def processOneSheet (cfg : Config) (dfOld dfNew : DataFrame) :
    Except String (DataFrame × DataFrame × SheetDiff) :=
  match (if cfg.index_name = "_index_" then Except.ok dfOld
         else set_index dfOld cfg.index_name) with
  | Except.error e => Except.error e
  | Except.ok dfo =>
    match (if cfg.index_name = "_index_" then Except.ok dfNew
           else set_index dfNew cfg.index_name) with
    | Except.error e => Except.error e
    | Except.ok dfn => get_sheet_diff cfg dfo dfn

/-- The loop of `get_excel_diff` (lines 45–63), iterating the old
workbook's sheets in order.  For each old sheet: set up the old frame's
index; fetch the sheet of the same NAME from the new workbook
(`self.new_excel[sheet_name]` — a dict lookup, `KeyError` when absent);
set up its index; diff; store both mutated frames back; recurse.  Returns
the old workbook's final frames, the new workbook's final frames, and the
per-sheet results in iteration order.  (On an error Python keeps the
mutations already made before propagating; the run aborts there, so the
post-error state is not observable and `Except.error` carries none.) -/
def processSheets (cfg : Config) :
    List (String × DataFrame) → List (String × DataFrame) →
    Except String
      (List (String × DataFrame) × List (String × DataFrame) × List (String × SheetDiff))
  | [], new_excel => Except.ok ([], new_excel, [])
  | (n, dfOld) :: rest, new_excel =>
    match (if cfg.index_name = "_index_" then Except.ok dfOld
           else set_index dfOld cfg.index_name) with
    | Except.error e => Except.error e
    | Except.ok dfo =>
      match lookupSheet new_excel n with
      | none => Except.error ("KeyError: " ++ n)
      | some dfNew =>
        match (if cfg.index_name = "_index_" then Except.ok dfNew
               else set_index dfNew cfg.index_name) with
        | Except.error e => Except.error e
        | Except.ok dfn =>
          match get_sheet_diff cfg dfo dfn with
          | Except.error e => Except.error e
          | Except.ok (dfo2, dfn2, d) =>
            match processSheets cfg rest (updateSheet new_excel n dfn2) with
            | Except.error e => Except.error e
            | Except.ok (restOld, finalNew, res) =>
              Except.ok ((n, dfo2) :: restOld, finalNew, (n, d) :: res)

/-- `ExcelCompare.get_excel_diff` (lines 42–65) as a transformer of the
object's state: runs the loop over `self.old_excel` and returns the
mutated state together with the per-sheet diff dict (as an ordered
association list, like the Python dict it fills). -/
def get_excel_diff (cfg : Config) (st : CompareState) :
    Except String (CompareState × List (String × SheetDiff)) :=
  match processSheets cfg st.old_excel st.new_excel with
  | Except.error e => Except.error e
  | Except.ok (o, nw, res) => Except.ok (⟨o, nw⟩, res)

/-- A frame as `pd.read_excel` yields one: the authored columns, the rows
indexed by position. -/
def fromRecords (cols : List String) (data : List (List String)) : DataFrame :=
  ⟨cols, data.enum.map fun p => (toString p.1, p.2)⟩

end ExcelCompare

/-! ## List-level facts about the embedding's operations -/

namespace ExcelCompare

theorem keys_dropCols (df : DataFrame) (drop : List String) :
    keys (dropCols df drop) = keys df := by
  simp [keys, dropCols]

theorem mem_locList {df : DataFrame} {ks : List String} {r : String × List String} :
    r ∈ locList df ks ↔ r.1 ∈ ks ∧ r ∈ df.rows := by
  simp only [locList, List.mem_flatMap, List.mem_filter, beq_iff_eq]
  constructor
  · rintro ⟨k, hk, hr, hrk⟩
    exact ⟨hrk ▸ hk, hr⟩
  · rintro ⟨h1, h2⟩
    exact ⟨r.1, h1, h2, rfl⟩

theorem locList_nil (df : DataFrame) : locList df [] = [] := rfl

theorem map_fst_filter_key (rows : List (String × List String)) (k : String) :
    (rows.filter fun r => r.1 == k).map Prod.fst
      = List.replicate ((rows.map Prod.fst).count k) k := by
  induction rows with
  | nil => simp
  | cons r rs ih =>
    by_cases h : r.1 = k
    · simp only [List.filter_cons, h, beq_self_eq_true, if_pos, List.map_cons,
        List.count_cons, ih, List.map_map]
      simp [h, List.replicate_succ, ih]
    · simp only [List.filter_cons, List.map_cons, List.count_cons]
      simp [h, ih]

theorem keys_locList (df : DataFrame) (ks : List String) :
    (locList df ks).map Prod.fst
      = ks.flatMap fun k => List.replicate ((keys df).count k) k := by
  rw [locList, List.map_flatMap]
  exact List.flatMap_congr fun k _ => map_fst_filter_key df.rows k

theorem count_flatMap_replicate (ks : List String) (f : String → Nat) (m : String) :
    ((ks.flatMap fun k => List.replicate (f k) k).count m) = ks.count m * f m := by
  induction ks with
  | nil => simp
  | cons k ks ih =>
    rw [List.flatMap_cons, List.count_append, ih, List.count_cons, List.count_replicate]
    by_cases h : k = m
    · subst h
      simp [Nat.add_mul]
      omega
    · simp [h, beq_iff_eq]

theorem flatMap_replicate_one {ks : List String} {f : String → Nat}
    (h : ∀ k ∈ ks, f k = 1) : (ks.flatMap fun k => List.replicate (f k) k) = ks := by
  induction ks with
  | nil => rfl
  | cons k ks ih =>
    rw [List.flatMap_cons, h k (List.mem_cons_self _ _), List.replicate_one,
      ih fun x hx => h x (List.mem_cons_of_mem _ hx)]
    rfl

theorem mem_flatMap_replicate {ks : List String} {f : String → Nat} {m : String} :
    (m ∈ ks.flatMap fun k => List.replicate (f k) k) ↔ m ∈ ks ∧ f m ≠ 0 := by
  simp only [List.mem_flatMap, List.mem_replicate]
  constructor
  · rintro ⟨k, hk, hn, rfl⟩
    exact ⟨hk, hn⟩
  · rintro ⟨h1, h2⟩
    exact ⟨m, h1, h2, rfl⟩

theorem mergedKeys_perm (dfo dfn : DataFrame) :
    (mergedKeys dfo dfn).Perm ((keys dfo ++ keys dfn).dedup) :=
  List.perm_insertionSort _ _

theorem mergedKeys_nodup (dfo dfn : DataFrame) : (mergedKeys dfo dfn).Nodup :=
  ((mergedKeys_perm dfo dfn).nodup_iff).2 (List.nodup_dedup _)

theorem mem_mergedKeys {dfo dfn : DataFrame} {m : String} :
    m ∈ mergedKeys dfo dfn ↔ m ∈ keys dfo ∨ m ∈ keys dfn := by
  rw [(mergedKeys_perm dfo dfn).mem_iff, List.mem_dedup, List.mem_append]

theorem count_mergedKeys_of_mem {dfo dfn : DataFrame} {m : String}
    (h : m ∈ mergedKeys dfo dfn) : (mergedKeys dfo dfn).count m = 1 :=
  List.count_eq_one_of_mem (mergedKeys_nodup dfo dfn) h

theorem count_mergedKeys_of_not_mem {dfo dfn : DataFrame} {m : String}
    (h : m ∉ mergedKeys dfo dfn) : (mergedKeys dfo dfn).count m = 0 :=
  List.count_eq_zero_of_not_mem h

theorem df_idx_in_both_eq (dfo dfn : DataFrame) :
    df_idx_in_both dfo dfn
      = (mergedKeys dfo dfn).flatMap fun k =>
          List.replicate ((keys dfo).count k * (keys dfn).count k) k := by
  rw [df_idx_in_both, mergedIndex, List.filter_flatMap, List.map_flatMap]
  refine List.flatMap_congr fun k _ => ?_
  by_cases ha : (keys dfo).count k = 0
  · simp [ha, List.filter_replicate]
  · by_cases hb : (keys dfn).count k = 0
    · simp [ha, hb, List.filter_replicate]
    · simp [ha, hb, List.filter_replicate, List.map_replicate]

theorem df_idx_in_old_only_eq (dfo dfn : DataFrame) :
    df_idx_in_old_only dfo dfn
      = (mergedKeys dfo dfn).flatMap fun k =>
          List.replicate (if (keys dfn).count k = 0 then (keys dfo).count k else 0) k := by
  rw [df_idx_in_old_only, mergedIndex, List.filter_flatMap, List.map_flatMap]
  refine List.flatMap_congr fun k _ => ?_
  by_cases ha : (keys dfo).count k = 0
  · by_cases hb : (keys dfn).count k = 0
    · simp [ha, hb, List.filter_replicate]
    · simp [ha, hb, List.filter_replicate]
  · by_cases hb : (keys dfn).count k = 0
    · simp [ha, hb, List.filter_replicate, List.map_replicate]
    · simp [ha, hb, List.filter_replicate]

theorem df_idx_in_new_only_eq (dfo dfn : DataFrame) :
    df_idx_in_new_only dfo dfn
      = (mergedKeys dfo dfn).flatMap fun k =>
          List.replicate (if (keys dfo).count k = 0 then (keys dfn).count k else 0) k := by
  rw [df_idx_in_new_only, mergedIndex, List.filter_flatMap, List.map_flatMap]
  refine List.flatMap_congr fun k _ => ?_
  by_cases ha : (keys dfo).count k = 0
  · simp [ha, List.filter_replicate, List.map_replicate]
  · by_cases hb : (keys dfn).count k = 0
    · simp [ha, hb, List.filter_replicate]
    · simp [ha, hb, List.filter_replicate]

theorem mem_df_idx_in_both {dfo dfn : DataFrame} {m : String} :
    m ∈ df_idx_in_both dfo dfn ↔ m ∈ keys dfo ∧ m ∈ keys dfn := by
  rw [df_idx_in_both_eq, mem_flatMap_replicate]
  constructor
  · rintro ⟨-, h2⟩
    rw [Nat.mul_ne_zero_iff] at h2
    exact ⟨List.count_pos_iff.1 (Nat.pos_of_ne_zero h2.1),
      List.count_pos_iff.1 (Nat.pos_of_ne_zero h2.2)⟩
  · rintro ⟨h1, h2⟩
    refine ⟨mem_mergedKeys.2 (Or.inl h1), Nat.mul_ne_zero ?_ ?_⟩
    · exact Nat.pos_iff_ne_zero.1 (List.count_pos_iff.2 h1)
    · exact Nat.pos_iff_ne_zero.1 (List.count_pos_iff.2 h2)

theorem mem_df_idx_in_old_only {dfo dfn : DataFrame} {m : String} :
    m ∈ df_idx_in_old_only dfo dfn ↔ m ∈ keys dfo ∧ m ∉ keys dfn := by
  rw [df_idx_in_old_only_eq, mem_flatMap_replicate]
  constructor
  · rintro ⟨-, h2⟩
    by_cases hb : (keys dfn).count m = 0
    · rw [if_pos hb] at h2
      exact ⟨List.count_pos_iff.1 (Nat.pos_of_ne_zero h2),
        fun hm => (Nat.pos_iff_ne_zero.1 (List.count_pos_iff.2 hm)) hb⟩
    · rw [if_neg hb] at h2
      exact absurd rfl h2
  · rintro ⟨h1, h2⟩
    refine ⟨mem_mergedKeys.2 (Or.inl h1), ?_⟩
    rw [if_pos (List.count_eq_zero_of_not_mem h2)]
    exact Nat.pos_iff_ne_zero.1 (List.count_pos_iff.2 h1)

theorem mem_df_idx_in_new_only {dfo dfn : DataFrame} {m : String} :
    m ∈ df_idx_in_new_only dfo dfn ↔ m ∈ keys dfn ∧ m ∉ keys dfo := by
  rw [df_idx_in_new_only_eq, mem_flatMap_replicate]
  constructor
  · rintro ⟨-, h2⟩
    by_cases ha : (keys dfo).count m = 0
    · rw [if_pos ha] at h2
      exact ⟨List.count_pos_iff.1 (Nat.pos_of_ne_zero h2),
        fun hm => (Nat.pos_iff_ne_zero.1 (List.count_pos_iff.2 hm)) ha⟩
    · rw [if_neg ha] at h2
      exact absurd rfl h2
  · rintro ⟨h1, h2⟩
    refine ⟨mem_mergedKeys.2 (Or.inr h1), ?_⟩
    rw [if_pos (List.count_eq_zero_of_not_mem h2)]
    exact Nat.pos_iff_ne_zero.1 (List.count_pos_iff.2 h1)

theorem count_df_idx_in_both (dfo dfn : DataFrame) (m : String) :
    (df_idx_in_both dfo dfn).count m = (keys dfo).count m * (keys dfn).count m := by
  rw [df_idx_in_both_eq, count_flatMap_replicate]
  by_cases h : m ∈ mergedKeys dfo dfn
  · rw [count_mergedKeys_of_mem h, Nat.one_mul]
  · rw [count_mergedKeys_of_not_mem h, Nat.zero_mul]
    have h1 : m ∉ keys dfo := fun hm => h (mem_mergedKeys.2 (Or.inl hm))
    rw [List.count_eq_zero_of_not_mem h1, Nat.zero_mul]

theorem count_df_idx_in_old_only (dfo dfn : DataFrame) (m : String) :
    (df_idx_in_old_only dfo dfn).count m
      = if (keys dfn).count m = 0 then (keys dfo).count m else 0 := by
  rw [df_idx_in_old_only_eq, count_flatMap_replicate]
  by_cases h : m ∈ mergedKeys dfo dfn
  · rw [count_mergedKeys_of_mem h, Nat.one_mul]
  · rw [count_mergedKeys_of_not_mem h, Nat.zero_mul]
    have h1 : m ∉ keys dfo := fun hm => h (mem_mergedKeys.2 (Or.inl hm))
    rw [List.count_eq_zero_of_not_mem h1]
    simp

theorem count_df_idx_in_new_only (dfo dfn : DataFrame) (m : String) :
    (df_idx_in_new_only dfo dfn).count m
      = if (keys dfo).count m = 0 then (keys dfn).count m else 0 := by
  rw [df_idx_in_new_only_eq, count_flatMap_replicate]
  by_cases h : m ∈ mergedKeys dfo dfn
  · rw [count_mergedKeys_of_mem h, Nat.one_mul]
  · rw [count_mergedKeys_of_not_mem h, Nat.zero_mul]
    have h1 : m ∉ keys dfn := fun hm => h (mem_mergedKeys.2 (Or.inr hm))
    rw [List.count_eq_zero_of_not_mem h1]
    simp

end ExcelCompare

/-! ## Counting rows selected by label, and zip facts -/

namespace ExcelCompare

theorem count_keys_locList (df : DataFrame) (ks : List String) (m : String) :
    ((locList df ks).map Prod.fst).count m = ks.count m * (keys df).count m := by
  rw [keys_locList, count_flatMap_replicate]

theorem countP_filter_key (rows : List (String × List String)) (k k2 : String) :
    ((rows.filter fun r => r.1 == k2).countP fun r => r.1 == k)
      = if k2 = k then (rows.map Prod.fst).count k2 else 0 := by
  rw [List.countP_filter]
  by_cases h : k2 = k
  · subst h
    rw [if_pos rfl, List.count_eq_countP, List.countP_map]
    refine List.countP_congr fun r _ => ?_
    simp [Bool.and_self, Function.comp]
  · rw [if_neg h, List.countP_eq_length_filter]
    rw [List.filter_eq_nil_iff.2 ?_, List.length_nil]
    intro r _
    simp only [Bool.and_eq_true, beq_iff_eq, not_and]
    intro h1 h2
    exact h (h2 ▸ h1)

theorem countP_locList_key (df : DataFrame) (ks : List String) (k : String) :
    ((locList df ks).countP fun r => r.1 == k) = ks.count k * (keys df).count k := by
  simp only [keys]
  induction ks with
  | nil => simp [locList]
  | cons k2 ks ih =>
    rw [locList, List.flatMap_cons, List.countP_append, ← locList, ih,
      countP_filter_key, List.count_cons]
    by_cases h : k2 = k
    · subst h
      simp [Nat.add_mul]
      omega
    · simp [h, beq_iff_eq]

theorem mem_zip_self {α : Type} {l : List α} {p : α × α} (hp : p ∈ l.zip l) :
    p.1 = p.2 := by
  induction l with
  | nil => cases hp
  | cons a l ih =>
    rw [List.zip_cons_cons, List.mem_cons] at hp
    rcases hp with h | h
    · rw [h]
    · exact ih h

theorem zip_fst_eq_of_map_fst_eq {α β γ : Type} {l1 : List (α × β)} {l2 : List (α × γ)}
    (h : l1.map Prod.fst = l2.map Prod.fst) :
    ∀ p ∈ l1.zip l2, p.1.1 = p.2.1 := by
  induction l1 generalizing l2 with
  | nil => intro p hp; cases hp
  | cons a l ih =>
    cases l2 with
    | nil => cases h
    | cons b l2 =>
      simp only [List.map_cons, List.cons.injEq] at h
      intro p hp
      rw [List.zip_cons_cons, List.mem_cons] at hp
      rcases hp with hp | hp
      · rw [hp]
        exact h.1
      · exact ih h.2 p hp

theorem zip_snd_mem {α β : Type} {l1 : List α} {l2 : List β} {p : α × β}
    (hp : p ∈ l1.zip l2) : p.2 ∈ l2 :=
  (List.of_mem_zip hp).2

theorem zip_fst_mem {α β : Type} {l1 : List α} {l2 : List β} {p : α × β}
    (hp : p ∈ l1.zip l2) : p.1 ∈ l1 :=
  (List.of_mem_zip hp).1

end ExcelCompare

/-! ## Inversion facts for the embedded pandas operations -/

namespace ExcelCompare

theorem compareDF_ok_inv {d1 d2 : DataFrame} {dc : List String}
    {rs : List (String × List (String × String))}
    (h : compareDF d1 d2 = Except.ok (dc, rs)) :
    keys d1 = keys d2 ∧ d1.cols = d2.cols ∧
      dc = (keptCols d1 d2).map (fun j => d1.cols.getD j "") ∧
      rs = (keptPairs d1 d2).map fun p =>
        (p.1.1, (keptCols d1 d2).map fun j => compareCell j p) := by
  rw [compareDF] at h
  split at h
  · rename_i hcond
    simp only [Except.ok.injEq, Prod.mk.injEq] at h
    exact ⟨hcond.1, hcond.2, h.1.symm, h.2.symm⟩
  · cases h

theorem compareDF_error_of_keys_ne {d1 d2 : DataFrame} (h : keys d1 ≠ keys d2) :
    ∃ e, compareDF d1 d2 = Except.error e := by
  rw [compareDF, if_neg]
  · exact ⟨_, rfl⟩
  · intro hc
    exact h hc.1

theorem compareDF_ok_of_labeled {d1 d2 : DataFrame}
    (h1 : keys d1 = keys d2) (h2 : d1.cols = d2.cols) :
    compareDF d1 d2
      = Except.ok ((keptCols d1 d2).map (fun j => d1.cols.getD j ""),
          (keptPairs d1 d2).map fun p =>
            (p.1.1, (keptCols d1 d2).map fun j => compareCell j p)) := by
  rw [compareDF, if_pos ⟨h1, h2⟩]

theorem changedOf_rows {cfg : Config} {dfo dfob : DataFrame} {dc : List String}
    {rs : List (String × List (String × String))} {ch : ChangedDF}
    (h : changedOf cfg dfo dfob dc rs = Except.ok ch) :
    ∀ row ∈ ch.rows, ∃ cr ∈ rs, row.1 = cr.1 ∧ row.2.2 = cr.2 := by
  rw [changedOf] at h
  split at h
  · split at h
    · split at h
      · cases h
        intro row hrow
        simp only [ChangedDF.mk.injEq] at *
        rw [List.mem_map] at hrow
        obtain ⟨q, hq, hrw⟩ := hrow
        exact ⟨q.2, zip_snd_mem hq, by rw [← hrw], by rw [← hrw]⟩
      · cases h
    · cases h
  · cases h
    intro row hrow
    rw [List.mem_map] at hrow
    obtain ⟨cr, hcr, hrw⟩ := hrow
    exact ⟨cr, hcr, by rw [← hrw], by rw [← hrw]⟩

theorem keptPairs_sparse (d1 d2 : DataFrame) :
    ∀ p ∈ keptPairs d1 d2,
      ∃ q ∈ (keptCols d1 d2).map fun j => compareCell j p, q.1 ≠ q.2 := by
  intro p hp
  have hmem : p ∈ d1.rows.zip d2.rows := List.mem_of_mem_filter hp
  have hdif : pairDiffers d1.cols.length p = true := List.of_mem_filter hp
  rw [pairDiffers, List.any_eq_true] at hdif
  obtain ⟨j, hj, hne⟩ := hdif
  rw [decide_eq_true_eq] at hne
  refine ⟨compareCell j p, List.mem_map_of_mem _ ?_, ?_⟩
  · rw [keptCols, List.mem_filter]
    exact ⟨hj, List.any_eq_true.2 ⟨p, hmem, decide_eq_true hne⟩⟩
  · rw [compareCell, if_pos hne]
    exact hne

theorem sheetDiffCore_ok_inv {cfg : Config} {d1 d2 o n : DataFrame} {r : SheetDiff}
    (h : sheetDiffCore cfg d1 d2 = Except.ok (o, n, r)) :
    o = d1 ∧ n = d2 ∧
      (∃ dc rs, compareDF (df_old_both d1 d2) (df_new_both d1 d2) = Except.ok (dc, rs) ∧
        changedOf cfg d1 (df_old_both d1 d2) dc rs = Except.ok r.changed) ∧
      r.added = ⟨d2.cols, locList d2 (df_idx_in_new_only d1 d2)⟩ ∧
      r.deleted = ⟨d1.cols, locList d1 (df_idx_in_old_only d1 d2)⟩ := by
  rw [sheetDiffCore] at h
  split at h
  · cases h
  · rename_i dc rs hcmp
    split at h
    · cases h
    · rename_i changed hch
      simp only [Except.ok.injEq, Prod.mk.injEq] at h
      obtain ⟨ho, hn, hr⟩ := h
      subst ho hn
      rw [← hr]
      exact ⟨rfl, rfl, ⟨dc, rs, hcmp, hch⟩, rfl, rfl⟩

theorem get_sheet_diff_ok_inv {cfg : Config} {dfOld dfNew o n : DataFrame} {r : SheetDiff}
    (h : get_sheet_diff cfg dfOld dfNew = Except.ok (o, n, r)) :
    o = (delete_ignored_and_conflicting_cols cfg.ignored_cols dfOld dfNew).1 ∧
      n = (delete_ignored_and_conflicting_cols cfg.ignored_cols dfOld dfNew).2 ∧
      (∃ dc rs, compareDF (df_old_both o n) (df_new_both o n) = Except.ok (dc, rs) ∧
        changedOf cfg o (df_old_both o n) dc rs = Except.ok r.changed) ∧
      r.added = ⟨n.cols, locList n (df_idx_in_new_only o n)⟩ ∧
      r.deleted = ⟨o.cols, locList o (df_idx_in_old_only o n)⟩ := by
  rw [get_sheet_diff] at h
  have h2 := sheetDiffCore_ok_inv h
  obtain ⟨ho, hn, hrest⟩ := h2
  subst ho
  subst hn
  exact ⟨rfl, rfl, hrest⟩

end ExcelCompare

/-! ## Self-comparison and emptiness helpers -/

namespace ExcelCompare

theorem keptCols_self (d : DataFrame) : keptCols d d = [] := by
  rw [keptCols]
  refine List.filter_eq_nil_iff.2 fun j _ => ?_
  rw [Bool.not_eq_true, List.any_eq_false]
  intro p hp
  rw [Bool.not_eq_true, decide_eq_false_iff_not, Decidable.not_not, mem_zip_self hp]

theorem keptPairs_self (d : DataFrame) : keptPairs d d = [] := by
  rw [keptPairs]
  refine List.filter_eq_nil_iff.2 fun p hp => ?_
  rw [Bool.not_eq_true, pairDiffers, List.any_eq_false]
  intro j _
  rw [Bool.not_eq_true, decide_eq_false_iff_not, Decidable.not_not, mem_zip_self hp]

theorem df_idx_in_old_only_self (d : DataFrame) : df_idx_in_old_only d d = [] := by
  rw [df_idx_in_old_only_eq]
  refine List.flatMap_eq_nil_iff.2 fun k _ => ?_
  by_cases h : (keys d).count k = 0 <;> simp [h]

theorem df_idx_in_new_only_self (d : DataFrame) : df_idx_in_new_only d d = [] := by
  rw [df_idx_in_new_only_eq]
  refine List.flatMap_eq_nil_iff.2 fun k _ => ?_
  by_cases h : (keys d).count k = 0 <;> simp [h]

end ExcelCompare

/-! ## The claims -/

namespace ExcelCompare

/-- Claim C5: for every pair of tables and every configured ignored-column
set, column reconciliation removes exactly the columns in
(columns only in old ∪ columns only in new) ∪ ignored from both tables, so
that afterwards the old and new tables have identical column sets. -/
theorem claim_C5 (df1 df2 : DataFrame) (ign : List String) :
    (∀ c, c ∈ (delete_ignored_and_conflicting_cols ign df1 df2).1.cols ↔
        c ∈ df1.cols ∧ c ∉ cols_to_delete df1 df2 ign) ∧
    (∀ c, c ∈ (delete_ignored_and_conflicting_cols ign df1 df2).2.cols ↔
        c ∈ df2.cols ∧ c ∉ cols_to_delete df1 df2 ign) ∧
    (∀ c, c ∈ cols_to_delete df1 df2 ign ↔
        c ∈ symmDiffCols df1.cols df2.cols ∨ c ∈ ign) ∧
    (∀ c, c ∈ (delete_ignored_and_conflicting_cols ign df1 df2).1.cols ↔
        c ∈ (delete_ignored_and_conflicting_cols ign df1 df2).2.cols) := by
  have hmem1 : ∀ c, c ∈ (delete_ignored_and_conflicting_cols ign df1 df2).1.cols ↔
      c ∈ df1.cols ∧ c ∉ cols_to_delete df1 df2 ign := by
    intro c
    simp [delete_ignored_and_conflicting_cols, dropCols, List.mem_filter]
  have hmem2 : ∀ c, c ∈ (delete_ignored_and_conflicting_cols ign df1 df2).2.cols ↔
      c ∈ df2.cols ∧ c ∉ cols_to_delete df1 df2 ign := by
    intro c
    simp [delete_ignored_and_conflicting_cols, dropCols, List.mem_filter]
  have hdel : ∀ c, c ∈ cols_to_delete df1 df2 ign ↔
      c ∈ symmDiffCols df1.cols df2.cols ∨ c ∈ ign := by
    intro c
    simp [cols_to_delete]
  have hsym : ∀ c, c ∈ symmDiffCols df1.cols df2.cols ↔
      ((c ∈ df1.cols ∧ c ∉ df2.cols) ∨ (c ∈ df2.cols ∧ c ∉ df1.cols)) := by
    intro c
    simp [symmDiffCols, List.mem_append, List.mem_filter]
  refine ⟨hmem1, hmem2, hdel, fun c => ?_⟩
  rw [hmem1, hmem2, hdel, hsym]
  tauto

/-- Claim C6: the three key sets produced by row alignment (present in
both, present only in old, present only in new) are pairwise disjoint, and
their union equals the union of all key values appearing in the old and
new tables. -/
theorem claim_C6 (dfo dfn : DataFrame) :
    (∀ k, ¬(k ∈ df_idx_in_both dfo dfn ∧ k ∈ df_idx_in_old_only dfo dfn)) ∧
    (∀ k, ¬(k ∈ df_idx_in_both dfo dfn ∧ k ∈ df_idx_in_new_only dfo dfn)) ∧
    (∀ k, ¬(k ∈ df_idx_in_old_only dfo dfn ∧ k ∈ df_idx_in_new_only dfo dfn)) ∧
    (∀ k, (k ∈ df_idx_in_both dfo dfn ∨ k ∈ df_idx_in_old_only dfo dfn ∨
        k ∈ df_idx_in_new_only dfo dfn) ↔ (k ∈ keys dfo ∨ k ∈ keys dfn)) := by
  refine ⟨fun k => ?_, fun k => ?_, fun k => ?_, fun k => ?_⟩ <;>
    simp only [mem_df_idx_in_both, mem_df_idx_in_old_only, mem_df_idx_in_new_only] <;>
    tauto

end ExcelCompare

namespace ExcelCompare

/-- Claim C3: for every sheet, the added result contains the full new-table
rows (all of their columns) whose key exists only in the new table, and the
deleted result contains the full old-table rows whose key exists only in
the old table.  (`o` and `n` are the old and new tables as the comparison
holds them, after the in-place column reconciliation.) -/
theorem claim_C3 (cfg : Config) (dfOld dfNew o n : DataFrame) (r : SheetDiff)
    (h : get_sheet_diff cfg dfOld dfNew = Except.ok (o, n, r)) :
    r.added.cols = n.cols ∧
    (∀ row, row ∈ r.added.rows ↔ row ∈ n.rows ∧ row.1 ∉ keys o) ∧
    r.deleted.cols = o.cols ∧
    (∀ row, row ∈ r.deleted.rows ↔ row ∈ o.rows ∧ row.1 ∉ keys n) := by
  obtain ⟨-, -, -, hadd, hdel⟩ := get_sheet_diff_ok_inv h
  rw [hadd, hdel]
  refine ⟨rfl, fun row => ?_, rfl, fun row => ?_⟩
  · show row ∈ locList n (df_idx_in_new_only o n) ↔ _
    rw [mem_locList, mem_df_idx_in_new_only]
    constructor
    · rintro ⟨⟨h1, h2⟩, h3⟩
      exact ⟨h3, h2⟩
    · rintro ⟨h3, h2⟩
      exact ⟨⟨List.mem_map_of_mem Prod.fst h3, h2⟩, h3⟩
  · show row ∈ locList o (df_idx_in_old_only o n) ↔ _
    rw [mem_locList, mem_df_idx_in_old_only]
    constructor
    · rintro ⟨⟨h1, h2⟩, h3⟩
      exact ⟨h3, h2⟩
    · rintro ⟨h3, h2⟩
      exact ⟨⟨List.mem_map_of_mem Prod.fst h3, h2⟩, h3⟩

/-- The session configuration most examples use: an explicit key column
"id" (already moved into the index in the sheet-level examples), no
reference columns, no ignored columns. -/
def cfgPlain : Config := ⟨"id", [], []⟩

def wC3old : DataFrame := ⟨["val"], [("1", ["a"]), ("2", ["b"])]⟩

def wC3new : DataFrame := ⟨["val"], [("1", ["a"]), ("3", ["c"])]⟩

def wC3res : SheetDiff :=
  ⟨⟨[], [], []⟩, ⟨["val"], [("3", ["c"])]⟩, ⟨["val"], [("2", ["b"])]⟩⟩

/-- Witness for C3 at the spec's own scenario: old `{1:a, 2:b}`, new
`{1:a, 3:c}` — added is the full row `3:c`, deleted the full row `2:b`. -/
theorem claim_C3_witness :
    wC3res.added.cols = wC3new.cols ∧
    (∀ row, row ∈ wC3res.added.rows ↔ row ∈ wC3new.rows ∧ row.1 ∉ keys wC3old) ∧
    wC3res.deleted.cols = wC3old.cols ∧
    (∀ row, row ∈ wC3res.deleted.rows ↔ row ∈ wC3old.rows ∧ row.1 ∉ keys wC3new) :=
  claim_C3 cfgPlain wC3old wC3new wC3old wC3new wC3res rfl

/-- Claim C7: for every sheet comparison that succeeds, every row of the
changed table has at least one compared column whose old and new values
differ (its (old, new) cell pairs are not all equal). -/
theorem claim_C7 (cfg : Config) (dfOld dfNew o n : DataFrame) (r : SheetDiff)
    (h : get_sheet_diff cfg dfOld dfNew = Except.ok (o, n, r)) :
    ∀ row ∈ r.changed.rows, ∃ q ∈ row.2.2, q.1 ≠ q.2 := by
  obtain ⟨-, -, ⟨dc, rs, hcmp, hch⟩, -, -⟩ := get_sheet_diff_ok_inv h
  obtain ⟨-, -, -, hrs⟩ := compareDF_ok_inv hcmp
  intro row hrow
  obtain ⟨cr, hcr, -, hpairs⟩ := changedOf_rows hch row hrow
  rw [hrs, List.mem_map] at hcr
  obtain ⟨p, hp, hcrp⟩ := hcr
  obtain ⟨q, hq, hne⟩ := keptPairs_sparse _ _ p hp
  refine ⟨q, ?_, hne⟩
  rw [hpairs, ← hcrp]
  exact hq

def wC7old : DataFrame := ⟨["val"], [("1", ["a"])]⟩

def wC7new : DataFrame := ⟨["val"], [("1", ["b"])]⟩

def wC7res : SheetDiff :=
  ⟨⟨[], ["val"], [("1", [], [("a", "b")])]⟩, ⟨["val"], []⟩, ⟨["val"], []⟩⟩

/-- Witness for C7: old `{1:a}` against new `{1:b}` yields one changed row,
and every changed row carries a differing (old, new) pair. -/
theorem claim_C7_witness :
    wC7res.changed.rows ≠ [] ∧
    ∀ row ∈ wC7res.changed.rows, ∃ q ∈ row.2.2, q.1 ≠ q.2 :=
  ⟨by decide, claim_C7 cfgPlain wC7old wC7new wC7old wC7new wC7res rfl⟩

theorem sheetDiffCore_self (cfg : Config) (d : DataFrame) :
    sheetDiffCore cfg d d = Except.ok (d, d, resultOf d d ⟨[], [], []⟩) := by
  have hEq : df_new_both d d = df_old_both d d := rfl
  have hcmp : compareDF (df_old_both d d) (df_new_both d d) = Except.ok ([], []) := by
    rw [hEq, compareDF_ok_of_labeled rfl rfl, keptCols_self, keptPairs_self]
    simp
  have hch : changedOf cfg d (df_old_both d d) [] []
      = Except.ok (⟨[], [], []⟩ : ChangedDF) := by
    rw [changedOf, if_neg]
    · simp
    · rintro ⟨-, hne⟩
      exact hne rfl
  rw [sheetDiffCore, hcmp]
  simp only [hch]

/-- Claim C8: for every table whose key values are all unique, comparing
the table against itself yields an empty changed, an empty added and an
empty deleted table. -/
theorem claim_C8 (cfg : Config) (df : DataFrame) (hnd : (keys df).Nodup) :
    ∃ o n r, get_sheet_diff cfg df df = Except.ok (o, n, r) ∧
      r.changed.rows = [] ∧ r.added.rows = [] ∧ r.deleted.rows = [] := by
  refine ⟨dropCols df (cols_to_delete df df cfg.ignored_cols),
    dropCols df (cols_to_delete df df cfg.ignored_cols),
    resultOf (dropCols df (cols_to_delete df df cfg.ignored_cols))
      (dropCols df (cols_to_delete df df cfg.ignored_cols)) ⟨[], [], []⟩,
    sheetDiffCore_self cfg _, rfl, ?_, ?_⟩
  · show locList _ (df_idx_in_new_only _ _) = []
    rw [df_idx_in_new_only_self]
    rfl
  · show locList _ (df_idx_in_old_only _ _) = []
    rw [df_idx_in_old_only_self]
    rfl

def wC8df : DataFrame := ⟨["lbl", "val"], [("1", ["x", "a"]), ("2", ["y", "b"])]⟩

/-- Witness for C8: a two-row table with distinct keys compared against
itself gives three empty results. -/
theorem claim_C8_witness :
    ∃ o n r, get_sheet_diff cfgPlain wC8df wC8df = Except.ok (o, n, r) ∧
      r.changed.rows = [] ∧ r.added.rows = [] ∧ r.deleted.rows = [] :=
  claim_C8 cfgPlain wC8df (by decide)

theorem count_keys_df_old_both (d1 d2 : DataFrame) (m : String) :
    (keys (df_old_both d1 d2)).count m
      = ((keys d1).count m * (keys d2).count m) * (keys d1).count m := by
  show ((locList d1 (df_idx_in_both d1 d2)).map Prod.fst).count m = _
  rw [count_keys_locList, count_df_idx_in_both]

theorem count_keys_df_new_both (d1 d2 : DataFrame) (m : String) :
    (keys (df_new_both d1 d2)).count m
      = ((keys d1).count m * (keys d2).count m) * (keys d2).count m := by
  show ((locList d2 (df_idx_in_both d1 d2)).map Prod.fst).count m = _
  rw [count_keys_locList, count_df_idx_in_both]

/-- Claim C2 as amended: the sheet comparison raises the distinct
"Possibly duplicate index" error whenever some key lands in the both
bucket with different numbers of occurrences in the old and in the new
table — in particular when a key occurs more than once in the old table
and exactly once in the new.  (When every shared key occurs equally often
on both sides — e.g. twice in each — no error is raised; see the
counterexample.) -/
theorem claim_C2 (cfg : Config) (dfOld dfNew : DataFrame) (k : String)
    (h1 : k ∈ keys dfOld) (h2 : k ∈ keys dfNew)
    (hne : (keys dfOld).count k ≠ (keys dfNew).count k) :
    get_sheet_diff cfg dfOld dfNew = Except.error "Possibly duplicate index" := by
  have hko : keys (delete_ignored_and_conflicting_cols cfg.ignored_cols dfOld dfNew).1
      = keys dfOld := keys_dropCols _ _
  have hkn : keys (delete_ignored_and_conflicting_cols cfg.ignored_cols dfOld dfNew).2
      = keys dfNew := keys_dropCols _ _
  have hkne :
      keys (df_old_both (delete_ignored_and_conflicting_cols cfg.ignored_cols dfOld dfNew).1
          (delete_ignored_and_conflicting_cols cfg.ignored_cols dfOld dfNew).2)
      ≠ keys (df_new_both (delete_ignored_and_conflicting_cols cfg.ignored_cols dfOld dfNew).1
          (delete_ignored_and_conflicting_cols cfg.ignored_cols dfOld dfNew).2) := by
    intro hEq
    have hc := congrArg (List.count k) hEq
    rw [count_keys_df_old_both, count_keys_df_new_both, hko, hkn] at hc
    have ha : 0 < (keys dfOld).count k := List.count_pos_iff.2 h1
    have hb : 0 < (keys dfNew).count k := List.count_pos_iff.2 h2
    exact hne (Nat.eq_of_mul_eq_mul_left (Nat.mul_pos ha hb) hc)
  obtain ⟨e, he⟩ := compareDF_error_of_keys_ne hkne
  rw [get_sheet_diff, sheetDiffCore, he]

def xC2old : DataFrame := ⟨["val"], [("1", ["a"]), ("1", ["b"])]⟩

def xC2new : DataFrame := ⟨["val"], [("1", ["a"]), ("1", ["c"])]⟩

/-- Counterexample to C2 as stated: the key "1" occurs twice in the old
table and also occurs in the new table (twice), so its duplicates land in
the both bucket — yet the comparison raises nothing and returns a
(mispaired) diff result. -/
theorem claim_C2_cex :
    (keys xC2old).count "1" = 2 ∧ "1" ∈ keys xC2new ∧
    ∃ t, get_sheet_diff cfgPlain xC2old xC2new = Except.ok t ∧
      t.2.2.changed.rows ≠ [] := by
  refine ⟨by decide, by decide, ⟨(xC2old, xC2new,
    ⟨⟨[], ["val"], [("1", [], [("b", "c")]), ("1", [], [("b", "c")]),
        ("1", [], [("b", "c")]), ("1", [], [("b", "c")])]⟩,
      ⟨["val"], []⟩, ⟨["val"], []⟩⟩), rfl, by decide⟩⟩

def wC2old : DataFrame := ⟨["val"], [("2", ["a"]), ("2", ["b"])]⟩

def wC2new : DataFrame := ⟨["val"], [("2", ["a"])]⟩

/-- Witness for the amended C2: the key "2" occurs twice in old and once in
new, and the comparison fails with the duplicate-index error. -/
theorem claim_C2_witness :
    get_sheet_diff cfgPlain wC2old wC2new = Except.error "Possibly duplicate index" :=
  claim_C2 cfgPlain wC2old wC2new "2" (by decide) (by decide) (by decide)

end ExcelCompare

namespace ExcelCompare

theorem count_row_filter_key (rows : List (String × List String)) (k2 : String)
    (r : String × List String) :
    ((rows.filter fun x => x.1 == k2).count r) = if k2 = r.1 then rows.count r else 0 := by
  by_cases h : k2 = r.1
  · rw [if_pos h, List.count_eq_countP, List.countP_filter, List.count_eq_countP]
    refine List.countP_congr fun x _ => ?_
    simp only [Bool.and_eq_true, beq_iff_eq]
    constructor
    · rintro ⟨h1, -⟩
      exact h1
    · rintro rfl
      exact ⟨rfl, h.symm⟩
  · rw [if_neg h, List.count_eq_countP, List.countP_filter,
      List.countP_eq_length_filter, List.filter_eq_nil_iff.2 ?_, List.length_nil]
    intro x _
    simp only [Bool.and_eq_true, beq_iff_eq, not_and]
    rintro rfl h2
    exact h h2.symm

theorem count_locList_row (df : DataFrame) (ks : List String) (r : String × List String) :
    (locList df ks).count r = ks.count r.1 * df.rows.count r := by
  induction ks with
  | nil => simp [locList]
  | cons k2 ks ih =>
    rw [locList, List.flatMap_cons, List.count_append, ← locList, ih,
      count_row_filter_key, List.count_cons]
    by_cases h : k2 = r.1
    · subst h
      simp [Nat.add_mul]
      omega
    · simp [h, beq_iff_eq]

/-- When every key shared by the two (reconciled) frames occurs exactly
once on each side, and every configured reference column is present, the
core sheet comparison succeeds. -/
theorem sheetDiffCore_balanced (cfg : Config) (o n : DataFrame)
    (hcols : o.cols = n.cols)
    (hshared : ∀ k, k ∈ keys o → k ∈ keys n →
      (keys o).count k = 1 ∧ (keys n).count k = 1)
    (hrefs : ∀ c ∈ cfg.other_ref_cols, c ∈ o.cols) :
    ∃ r, sheetDiffCore cfg o n = Except.ok (o, n, r) ∧
      r.added = ⟨n.cols, locList n (df_idx_in_new_only o n)⟩ ∧
      r.deleted = ⟨o.cols, locList o (df_idx_in_old_only o n)⟩ := by
  have hboth1 : ∀ k ∈ df_idx_in_both o n, (keys o).count k = 1 := fun k hk =>
    (hshared k (mem_df_idx_in_both.1 hk).1 (mem_df_idx_in_both.1 hk).2).1
  have hboth2 : ∀ k ∈ df_idx_in_both o n, (keys n).count k = 1 := fun k hk =>
    (hshared k (mem_df_idx_in_both.1 hk).1 (mem_df_idx_in_both.1 hk).2).2
  have hkeysO : keys (df_old_both o n) = df_idx_in_both o n := by
    show (locList o (df_idx_in_both o n)).map Prod.fst = _
    rw [keys_locList]
    exact flatMap_replicate_one hboth1
  have hkeysN : keys (df_new_both o n) = df_idx_in_both o n := by
    show (locList n (df_idx_in_both o n)).map Prod.fst = _
    rw [keys_locList]
    exact flatMap_replicate_one hboth2
  have hcmp := compareDF_ok_of_labeled (hkeysO.trans hkeysN.symm)
    (show o.cols = n.cols from hcols)
  have hch : ∃ ch, changedOf cfg o (df_old_both o n)
      ((keptCols (df_old_both o n) (df_new_both o n)).map
        (fun j => (df_old_both o n).cols.getD j ""))
      ((keptPairs (df_old_both o n) (df_new_both o n)).map fun p =>
        (p.1.1, (keptCols (df_old_both o n) (df_new_both o n)).map fun j => compareCell j p))
      = Except.ok ch := by
    rw [changedOf]
    by_cases hc1 : cfg.other_ref_cols ≠ [] ∧
        ((keptPairs (df_old_both o n) (df_new_both o n)).map fun p =>
          (p.1.1, (keptCols (df_old_both o n) (df_new_both o n)).map fun j =>
            compareCell j p)) ≠ []
    · rw [if_pos hc1, if_pos hrefs, if_pos ?_]
      · exact ⟨_, rfl⟩
      · rw [keys_locList]
        refine flatMap_replicate_one fun k hk => ?_
        rw [List.map_map] at hk
        rw [List.mem_map] at hk
        obtain ⟨p, hp, hpk⟩ := hk
        have hpz : p ∈ (df_old_both o n).rows.zip (df_new_both o n).rows :=
          List.mem_of_mem_filter hp
        have hp1 : p.1 ∈ (df_old_both o n).rows := zip_fst_mem hpz
        have hkmem : k ∈ df_idx_in_both o n := by
          rw [← hkeysO, ← hpk]
          exact List.mem_map_of_mem Prod.fst hp1
        rw [hkeysO, count_df_idx_in_both, hboth1 k hkmem, hboth2 k hkmem]
    · rw [if_neg hc1]
      exact ⟨_, rfl⟩
  obtain ⟨ch, hch⟩ := hch
  refine ⟨resultOf o n ch, ?_, rfl, rfl⟩
  rw [sheetDiffCore, hcmp]
  simp only [hch]

end ExcelCompare

namespace ExcelCompare

/-- Claim C10 as amended, under three provisos, each needed for `compare`
not to raise: every key shared by the two tables occurs exactly once on
each side (an unbalanced shared key raises — see the counterexample); the
two tables' surviving columns agree as lists, i.e. the common non-ignored
columns appear in the same order (`compare` requires identically-labeled
frames, so differently-ordered column lists also raise, again wrapped as
"Possibly duplicate index"); and every configured reference column
survives reconciliation (else the `.loc` projection raises `KeyError`).
Then the comparison succeeds, and a key occurring a times in the old table
and never in the new contributes a*a rows to deleted — each of its a rows
selected a times — and symmetrically for new-only keys and added. -/
theorem claim_C10 (cfg : Config) (dfOld dfNew : DataFrame)
    (hcols : (delete_ignored_and_conflicting_cols cfg.ignored_cols dfOld dfNew).1.cols
      = (delete_ignored_and_conflicting_cols cfg.ignored_cols dfOld dfNew).2.cols)
    (hshared : ∀ k, k ∈ keys dfOld → k ∈ keys dfNew →
      (keys dfOld).count k = 1 ∧ (keys dfNew).count k = 1)
    (hrefs : ∀ c ∈ cfg.other_ref_cols,
      c ∈ (delete_ignored_and_conflicting_cols cfg.ignored_cols dfOld dfNew).1.cols) :
    ∃ o n r, get_sheet_diff cfg dfOld dfNew = Except.ok (o, n, r) ∧
      (∀ k, (keys dfNew).count k = 0 →
        (r.deleted.rows.countP fun row => row.1 == k)
          = (keys dfOld).count k * (keys dfOld).count k ∧
        ∀ row ∈ o.rows, row.1 = k →
          r.deleted.rows.count row = (keys dfOld).count k * o.rows.count row) ∧
      (∀ k, (keys dfOld).count k = 0 →
        (r.added.rows.countP fun row => row.1 == k)
          = (keys dfNew).count k * (keys dfNew).count k ∧
        ∀ row ∈ n.rows, row.1 = k →
          r.added.rows.count row = (keys dfNew).count k * n.rows.count row) := by
  have ho : keys (delete_ignored_and_conflicting_cols cfg.ignored_cols dfOld dfNew).1
      = keys dfOld := keys_dropCols _ _
  have hn : keys (delete_ignored_and_conflicting_cols cfg.ignored_cols dfOld dfNew).2
      = keys dfNew := keys_dropCols _ _
  obtain ⟨r, hr, hadd, hdel⟩ := sheetDiffCore_balanced cfg
    (delete_ignored_and_conflicting_cols cfg.ignored_cols dfOld dfNew).1
    (delete_ignored_and_conflicting_cols cfg.ignored_cols dfOld dfNew).2
    hcols (by rw [ho, hn]; exact hshared) hrefs
  refine ⟨_, _, r, hr, fun k hk0 => ⟨?_, fun row hrow hrk => ?_⟩,
    fun k hk0 => ⟨?_, fun row hrow hrk => ?_⟩⟩
  · rw [hdel]
    show ((locList _ (df_idx_in_old_only _ _)).countP fun row => row.1 == k) = _
    rw [countP_locList_key, count_df_idx_in_old_only, ho, hn, if_pos hk0]
  · rw [hdel]
    show (locList _ (df_idx_in_old_only _ _)).count row = _
    rw [count_locList_row, count_df_idx_in_old_only, hrk, ho, hn, if_pos hk0]
  · rw [hadd]
    show ((locList _ (df_idx_in_new_only _ _)).countP fun row => row.1 == k) = _
    rw [countP_locList_key, count_df_idx_in_new_only, ho, hn, if_pos hk0]
  · rw [hadd]
    show (locList _ (df_idx_in_new_only _ _)).count row = _
    rw [count_locList_row, count_df_idx_in_new_only, hrk, ho, hn, if_pos hk0]

def xC10old : DataFrame :=
  ⟨["val"], [("1", ["a"]), ("1", ["b"]), ("2", ["x"]), ("2", ["y"])]⟩

def xC10new : DataFrame := ⟨["val"], [("2", ["x"])]⟩

/-- Counterexample to C10 as stated: the key "1" occurs twice in the old
table and never in the new — yet the comparison does raise the
duplicate-index error (the unrelated key "2", twice in old and once in
new, trips it), so "the comparison does not raise" does not hold for every
such sheet pair. -/
theorem claim_C10_cex :
    (keys xC10old).count "1" = 2 ∧ "1" ∉ keys xC10new ∧
    get_sheet_diff cfgPlain xC10old xC10new = Except.error "Possibly duplicate index" := by
  refine ⟨by decide, by decide, rfl⟩

def wC10old : DataFrame := ⟨["val"], [("1", ["a"]), ("1", ["b"]), ("2", ["z"])]⟩

def wC10new : DataFrame := ⟨["val"], [("2", ["z"])]⟩

/-- Witness for the amended C10: key "1" twice in old only, the shared key
"2" once on each side — the comparison succeeds and deleted holds 2*2 rows
for key "1", each of its two rows twice. -/
theorem claim_C10_witness :
    ∃ o n r, get_sheet_diff cfgPlain wC10old wC10new = Except.ok (o, n, r) ∧
      (∀ k, (keys wC10new).count k = 0 →
        (r.deleted.rows.countP fun row => row.1 == k)
          = (keys wC10old).count k * (keys wC10old).count k ∧
        ∀ row ∈ o.rows, row.1 = k →
          r.deleted.rows.count row = (keys wC10old).count k * o.rows.count row) ∧
      (∀ k, (keys wC10old).count k = 0 →
        (r.added.rows.countP fun row => row.1 == k)
          = (keys wC10new).count k * (keys wC10new).count k ∧
        ∀ row ∈ n.rows, row.1 = k →
          r.added.rows.count row = (keys wC10new).count k * n.rows.count row) :=
  claim_C10 cfgPlain wC10old wC10new (by decide) (by decide) (by decide)

end ExcelCompare

namespace ExcelCompare

/-- Claim C4 as amended: whenever reference columns are configured and the
changed-table is non-empty (and the comparison succeeded), the reference
columns are prepended to the left of the diff columns as non-split
`(name, "-")` columns, each row's reference cells taken from the old table
at a row with the same key as the changed row.  However, reference columns
are NOT excluded from the comparison itself: a reference column common to
both tables is diffed like any other column, and its differences alone can
place a row in changed and add an old/new split column for it — see the
counterexample. -/
theorem claim_C4 (cfg : Config) (dfOld dfNew o n : DataFrame) (r : SheetDiff)
    (h : get_sheet_diff cfg dfOld dfNew = Except.ok (o, n, r))
    (href : cfg.other_ref_cols ≠ []) (hne : r.changed.rows ≠ []) :
    r.changed.refCols = cfg.other_ref_cols ∧
    ∀ row ∈ r.changed.rows, ∃ orow ∈ o.rows, orow.1 = row.1 ∧
      row.2.1 = cfg.other_ref_cols.map (colVal o.cols orow.2) := by
  obtain ⟨-, -, ⟨dc, rs, hcmp, hch⟩, -, -⟩ := get_sheet_diff_ok_inv h
  rw [changedOf] at hch
  by_cases hrs : rs = []
  · subst hrs
    rw [if_neg (by rintro ⟨-, hx⟩; exact hx rfl)] at hch
    simp only [List.map_nil, Except.ok.injEq] at hch
    exact absurd (by rw [← hch]) hne
  · rw [if_pos ⟨href, hrs⟩] at hch
    split at hch
    · split at hch
      · rename_i hrefsc hguard
        simp only [Except.ok.injEq] at hch
        refine ⟨by rw [← hch], fun row hrow => ?_⟩
        rw [← hch] at hrow
        simp only [List.mem_map] at hrow
        obtain ⟨q, hq, hqr⟩ := hrow
        have hq1 : q.1 ∈ locList (df_old_both o n) (rs.map Prod.fst) := zip_fst_mem hq
        have hq2 : q.1 ∈ locList o (df_idx_in_both o n) := (mem_locList.1 hq1).2
        have ho1 : q.1 ∈ o.rows := (mem_locList.1 hq2).2
        refine ⟨q.1, ho1, ?_, ?_⟩
        · rw [← hqr]
          exact zip_fst_eq_of_map_fst_eq hguard q hq
        · rw [← hqr]
      · simp at hch
    · simp at hch

def xC4cfg : Config := ⟨"id", ["lbl"], []⟩

def xC4old : DataFrame := ⟨["lbl", "val"], [("1", ["a", "x"])]⟩

def xC4new : DataFrame := ⟨["lbl", "val"], [("1", ["b", "x"])]⟩

def wC4res : SheetDiff :=
  ⟨⟨["lbl"], ["lbl"], [("1", ["a"], [("a", "b")])]⟩,
   ⟨["lbl", "val"], []⟩, ⟨["lbl", "val"], []⟩⟩

/-- Counterexample to C4 as stated: the configured reference column "lbl"
is the only column whose values differ — yet the comparison result puts a
row in changed and a split (old/new) column for "lbl" itself, so reference
columns are in fact diffed. -/
theorem claim_C4_cex :
    ∃ t, get_sheet_diff xC4cfg xC4old xC4new = Except.ok t ∧
      t.2.2.changed.diffCols = ["lbl"] ∧ t.2.2.changed.rows ≠ [] :=
  ⟨(xC4old, xC4new, wC4res), rfl, rfl, by decide⟩

/-- Witness for the amended C4 at the same input: the reference column is
prepended, its cells drawn from the old table at the changed row's key. -/
theorem claim_C4_witness :
    wC4res.changed.refCols = xC4cfg.other_ref_cols ∧
    ∀ row ∈ wC4res.changed.rows, ∃ orow ∈ xC4old.rows, orow.1 = row.1 ∧
      row.2.1 = xC4cfg.other_ref_cols.map (colVal xC4old.cols orow.2) :=
  claim_C4 xC4cfg xC4old xC4new xC4old xC4new wC4res rfl (by decide) (by decide)

end ExcelCompare

/-! ## Workbook-level facts -/

namespace ExcelCompare

theorem lookupSheet_updateSheet_ne {wb : List (String × DataFrame)} {n m : String}
    {df : DataFrame} (h : n ≠ m) :
    lookupSheet (updateSheet wb m df) n = lookupSheet wb n := by
  induction wb with
  | nil => rfl
  | cons p wb ih =>
    rw [lookupSheet, updateSheet, List.map_cons, List.find?_cons]
    by_cases hp : p.1 = m
    · rw [if_pos hp]
      have h1 : (m == n) = false := by
        simp [beq_iff_eq]
        exact fun he => h he.symm
      have h2 : (p.1 == n) = false := by
        simp [beq_iff_eq, hp]
        exact fun he => h he.symm
      rw [h1]
      rw [lookupSheet, List.find?_cons, h2]
      exact ih
    · rw [if_neg hp]
      cases hpn : (p.1 == n) with
      | true =>
        rw [lookupSheet, List.find?_cons, hpn]
      | false =>
        rw [lookupSheet, List.find?_cons, hpn]
        exact ih

theorem mem_dropCols_cols {df : DataFrame} {drop : List String} {c : String} :
    c ∈ (dropCols df drop).cols ↔ c ∈ df.cols ∧ c ∉ drop := by
  simp [dropCols, List.mem_filter]

theorem set_index_not_mem {df : DataFrame} {nm : String} {d2 : DataFrame}
    (h : set_index df nm = Except.ok d2) : nm ∉ d2.cols := by
  rw [set_index] at h
  split at h
  · split at h
    · rename_i hmem hcnt
      simp only [Except.ok.injEq] at h
      rw [← h]
      show nm ∉ df.cols.erase nm
      intro hmm
      have h1 := List.count_erase_self nm df.cols
      rw [hcnt] at h1
      have h2 : 0 < (df.cols.erase nm).count nm := List.count_pos_iff.2 hmm
      omega
    · exact Except.noConfusion h
  · exact Except.noConfusion h

theorem processSheets_spec (cfg : Config) (olds : List (String × DataFrame)) :
    ∀ (nw o nw2 : List (String × DataFrame)) (res : List (String × SheetDiff)),
      (olds.map Prod.fst).Nodup →
      processSheets cfg olds nw = Except.ok (o, nw2, res) →
      res.map Prod.fst = olds.map Prod.fst ∧
      o.map Prod.fst = olds.map Prod.fst ∧
      ∀ nm dfO, (nm, dfO) ∈ olds → ∃ dfN out,
        lookupSheet nw nm = some dfN ∧
        processOneSheet cfg dfO dfN = Except.ok out ∧ (nm, out.2.2) ∈ res := by
  induction olds with
  | nil =>
    intro nw o nw2 res hnd h
    simp only [processSheets, Except.ok.injEq, Prod.mk.injEq] at h
    obtain ⟨h1, -, h3⟩ := h
    subst h1
    subst h3
    exact ⟨rfl, rfl, fun nm dfO hmem => absurd hmem (List.not_mem_nil _)⟩
  | cons hd rest ih =>
    obtain ⟨n0, df0⟩ := hd
    intro nw o nw2 res hnd h
    simp only [processSheets] at h
    split at h
    · exact Except.noConfusion h
    · rename_i dfo hidxo
      split at h
      · exact Except.noConfusion h
      · rename_i dfN0 hlook
        split at h
        · exact Except.noConfusion h
        · rename_i dfn hidxn
          split at h
          · exact Except.noConfusion h
          · rename_i dfo2 dfn2 d hgsd
            split at h
            · exact Except.noConfusion h
            · rename_i restOld finalNew res' hrec
              simp only [Except.ok.injEq, Prod.mk.injEq] at h
              obtain ⟨h1, -, h3⟩ := h
              subst h1
              subst h3
              simp only [List.map_cons, List.nodup_cons] at hnd
              obtain ⟨hn0, hndr⟩ := hnd
              obtain ⟨ihres, ihold, ihmem⟩ :=
                ih (updateSheet nw n0 dfn2) restOld finalNew res' hndr hrec
              refine ⟨by simp only [List.map_cons, ihres], by simp only [List.map_cons, ihold], ?_⟩
              rintro nm dfO hmem
              rcases List.mem_cons.1 hmem with heq | hmemr
              · injection heq with e1 e2
                subst e1
                subst e2
                refine ⟨dfN0, (dfo2, dfn2, d), hlook, ?_, List.mem_cons_self _ _⟩
                simp only [processOneSheet, hidxo, hidxn, hgsd]
              · have hne : nm ≠ n0 := by
                  intro he
                  exact hn0 (he ▸ List.mem_map_of_mem Prod.fst hmemr)
                obtain ⟨dfN, out, hl, hone, hm⟩ := ihmem nm dfO hmemr
                rw [lookupSheet_updateSheet_ne hne] at hl
                exact ⟨dfN, out, hl, hone, List.mem_cons_of_mem _ hm⟩

theorem lookupSheet_mem {wb : List (String × DataFrame)} {n : String} {d : DataFrame}
    (h : lookupSheet wb n = some d) : n ∈ wb.map Prod.fst := by
  rw [lookupSheet] at h
  cases hf : wb.find? (fun p => p.1 == n) with
  | none =>
    rw [hf] at h
    exact Option.noConfusion h
  | some q =>
    have h1 : q.1 = n := by
      have := List.find?_some hf
      simpa using this
    have h2 := List.mem_of_find?_eq_some hf
    rw [← h1]
    exact List.mem_map_of_mem Prod.fst h2

theorem map_fst_updateSheet (wb : List (String × DataFrame)) (m : String) (df : DataFrame) :
    (updateSheet wb m df).map Prod.fst = wb.map Prod.fst := by
  induction wb with
  | nil => rfl
  | cons p wb ih =>
    show ((if p.1 = m then (m, df) else p) :: updateSheet wb m df).map Prod.fst = _
    rw [List.map_cons, List.map_cons, ih]
    by_cases hp : p.1 = m
    · rw [if_pos hp, hp]
    · rw [if_neg hp]

theorem mem_updateSheet_self {wb : List (String × DataFrame)} {m : String} (df : DataFrame)
    (h : m ∈ wb.map Prod.fst) : (m, df) ∈ updateSheet wb m df := by
  induction wb with
  | nil => exact absurd h (List.not_mem_nil _)
  | cons p wb ih =>
    rw [List.map_cons, List.mem_cons] at h
    show (m, df) ∈ (if p.1 = m then (m, df) else p) :: updateSheet wb m df
    rcases h with h | h
    · rw [if_pos h.symm]
      exact List.mem_cons_self _ _
    · exact List.mem_cons_of_mem _ (ih h)

theorem mem_updateSheet_of_ne {wb : List (String × DataFrame)} {m : String} {df : DataFrame}
    {p : String × DataFrame} (hp : p ∈ wb) (hne : p.1 ≠ m) : p ∈ updateSheet wb m df := by
  have h1 : (if p.1 = m then (m, df) else p) ∈ updateSheet wb m df :=
    List.mem_map_of_mem _ hp
  rw [if_neg hne] at h1
  exact h1

theorem mem_delete_cols_1 {ign : List String} {df1 df2 : DataFrame} {c : String} :
    c ∈ (delete_ignored_and_conflicting_cols ign df1 df2).1.cols ↔
      c ∈ df1.cols ∧ c ∉ cols_to_delete df1 df2 ign :=
  mem_dropCols_cols

theorem mem_delete_cols_2 {ign : List String} {df1 df2 : DataFrame} {c : String} :
    c ∈ (delete_ignored_and_conflicting_cols ign df1 df2).2.cols ↔
      c ∈ df2.cols ∧ c ∉ cols_to_delete df1 df2 ign :=
  mem_dropCols_cols

theorem delete_cols_not_ignored_1 {ign : List String} {df1 df2 : DataFrame} {c : String}
    (h : c ∈ (delete_ignored_and_conflicting_cols ign df1 df2).1.cols) : c ∉ ign := by
  intro hc
  exact (mem_delete_cols_1.1 h).2 (by rw [cols_to_delete]; exact List.mem_append_right _ hc)

theorem delete_cols_not_ignored_2 {ign : List String} {df1 df2 : DataFrame} {c : String}
    (h : c ∈ (delete_ignored_and_conflicting_cols ign df1 df2).2.cols) : c ∉ ign := by
  intro hc
  exact (mem_delete_cols_2.1 h).2 (by rw [cols_to_delete]; exact List.mem_append_right _ hc)

theorem delete_cols_symm {ign : List String} {df1 df2 : DataFrame} {c : String} :
    c ∈ (delete_ignored_and_conflicting_cols ign df1 df2).1.cols ↔
      c ∈ (delete_ignored_and_conflicting_cols ign df1 df2).2.cols := by
  rw [mem_delete_cols_1, mem_delete_cols_2]
  have hsym : c ∈ symmDiffCols df1.cols df2.cols ↔
      ((c ∈ df1.cols ∧ c ∉ df2.cols) ∨ (c ∈ df2.cols ∧ c ∉ df1.cols)) := by
    simp [symmDiffCols, List.mem_append, List.mem_filter]
  have hdel : c ∈ cols_to_delete df1 df2 ign ↔
      c ∈ symmDiffCols df1.cols df2.cols ∨ c ∈ ign := by
    simp [cols_to_delete]
  rw [hdel, hsym]
  tauto

theorem processSheets_mutation (cfg : Config) (olds : List (String × DataFrame)) :
    ∀ (nw o nw2 : List (String × DataFrame)) (res : List (String × SheetDiff)),
      (olds.map Prod.fst).Nodup →
      processSheets cfg olds nw = Except.ok (o, nw2, res) →
      o.map Prod.fst = olds.map Prod.fst ∧
      nw2.map Prod.fst = nw.map Prod.fst ∧
      (∀ p ∈ nw, p.1 ∉ olds.map Prod.fst → p ∈ nw2) ∧
      (∀ p ∈ o, (cfg.index_name ≠ "_index_" → cfg.index_name ∉ p.2.cols) ∧
        ∀ c ∈ p.2.cols, c ∉ cfg.ignored_cols) ∧
      (∀ nm, nm ∈ olds.map Prod.fst → ∃ dfo2 dfn2,
        (nm, dfo2) ∈ o ∧ (nm, dfn2) ∈ nw2 ∧
        (cfg.index_name ≠ "_index_" →
          cfg.index_name ∉ dfo2.cols ∧ cfg.index_name ∉ dfn2.cols) ∧
        (∀ c ∈ dfo2.cols, c ∉ cfg.ignored_cols) ∧
        (∀ c ∈ dfn2.cols, c ∉ cfg.ignored_cols) ∧
        (∀ c, c ∈ dfo2.cols ↔ c ∈ dfn2.cols)) := by
  induction olds with
  | nil =>
    intro nw o nw2 res hnd h
    simp only [processSheets, Except.ok.injEq, Prod.mk.injEq] at h
    obtain ⟨h1, h2, h3⟩ := h
    subst h1
    subst h2
    exact ⟨rfl, rfl, fun p hp _ => hp,
      fun p hp => absurd hp (List.not_mem_nil _),
      fun nm hnm => absurd hnm (List.not_mem_nil _)⟩
  | cons hd rest ih =>
    obtain ⟨n0, df0⟩ := hd
    intro nw o nw2 res hnd h
    simp only [processSheets] at h
    split at h
    · exact Except.noConfusion h
    · rename_i dfo hidxo
      split at h
      · exact Except.noConfusion h
      · rename_i dfN0 hlook
        split at h
        · exact Except.noConfusion h
        · rename_i dfn hidxn
          split at h
          · exact Except.noConfusion h
          · rename_i dfo2 dfn2 d hgsd
            split at h
            · exact Except.noConfusion h
            · rename_i restOld finalNew res' hrec
              simp only [Except.ok.injEq, Prod.mk.injEq] at h
              obtain ⟨h1, h2, h3⟩ := h
              subst h1
              subst h2
              subst h3
              simp only [List.map_cons, List.nodup_cons] at hnd
              obtain ⟨hn0, hndr⟩ := hnd
              obtain ⟨ihA, ihB, ihC, ihD, ihE⟩ :=
                ih (updateSheet nw n0 dfn2) restOld finalNew res' hndr hrec
              refine ⟨by simp only [List.map_cons, ihA],
                ihB.trans (map_fst_updateSheet nw n0 dfn2), ?_, ?_, ?_⟩
              · intro p hp hnot
                simp only [List.map_cons, List.mem_cons, not_or] at hnot
                exact ihC p (mem_updateSheet_of_ne hp hnot.1) hnot.2
              · rintro p hp
                rcases List.mem_cons.1 hp with heq | hmemr
                · subst heq
                  obtain ⟨e1, -, -, -, -⟩ := get_sheet_diff_ok_inv hgsd
                  refine ⟨fun hidx => ?_, fun c hc => ?_⟩
                  · rw [if_neg hidx] at hidxo
                    have hni := set_index_not_mem hidxo
                    intro hmem
                    rw [e1] at hmem
                    exact hni (mem_delete_cols_1.1 hmem).1
                  · rw [e1] at hc
                    exact delete_cols_not_ignored_1 hc
                · exact ihD p hmemr
              · intro nm hnm
                simp only [List.map_cons, List.mem_cons] at hnm
                rcases hnm with heq | hmemr
                · subst heq
                  obtain ⟨e1, e2, -, -, -⟩ := get_sheet_diff_ok_inv hgsd
                  have hmemN : (nm, dfn2) ∈ finalNew := by
                    have hm1 : nm ∈ nw.map Prod.fst := lookupSheet_mem hlook
                    exact ihC _ (mem_updateSheet_self dfn2 hm1) hn0
                  refine ⟨dfo2, dfn2, List.mem_cons_self _ _, hmemN,
                    fun hidx => ⟨?_, ?_⟩, ?_, ?_, ?_⟩
                  · rw [if_neg hidx] at hidxo
                    have hni := set_index_not_mem hidxo
                    intro hmem
                    rw [e1] at hmem
                    exact hni (mem_delete_cols_1.1 hmem).1
                  · rw [if_neg hidx] at hidxn
                    have hni := set_index_not_mem hidxn
                    intro hmem
                    rw [e2] at hmem
                    exact hni (mem_delete_cols_2.1 hmem).1
                  · intro c hc
                    rw [e1] at hc
                    exact delete_cols_not_ignored_1 hc
                  · intro c hc
                    rw [e2] at hc
                    exact delete_cols_not_ignored_2 hc
                  · intro c
                    rw [e1, e2]
                    exact delete_cols_symm
                · obtain ⟨dfo2x, dfn2x, hmo, hmn, hkey, hig1, hig2, hsym⟩ := ihE nm hmemr
                  exact ⟨dfo2x, dfn2x, List.mem_cons_of_mem _ hmo, hmn,
                    hkey, hig1, hig2, hsym⟩

end ExcelCompare

namespace ExcelCompare

/-- Claim C1 as amended: sheets are paired by NAME, not by position.
`get_excel_diff` iterates the old workbook's sheets in order and, for each,
fetches the new workbook's sheet of the same name (`self.new_excel[sheet_name]`);
the results carry the old workbook's sheet names in order, and each old
sheet is diffed against the equally-named new sheet.  New-workbook sheets
whose names do not occur in the old workbook are ignored, and an old sheet
name missing from the new workbook raises `KeyError` instead of being
truncated away — see the counterexample. -/
theorem claim_C1 (cfg : Config) (st st2 : CompareState)
    (res : List (String × SheetDiff))
    (hnd : (st.old_excel.map Prod.fst).Nodup)
    (h : get_excel_diff cfg st = Except.ok (st2, res)) :
    res.map Prod.fst = st.old_excel.map Prod.fst ∧
    ∀ nm dfO, (nm, dfO) ∈ st.old_excel → ∃ dfN out,
      lookupSheet st.new_excel nm = some dfN ∧
      processOneSheet cfg dfO dfN = Except.ok out ∧ (nm, out.2.2) ∈ res := by
  rw [get_excel_diff] at h
  split at h
  · exact Except.noConfusion h
  · rename_i o nw res' hps
    simp only [Except.ok.injEq, Prod.mk.injEq] at h
    obtain ⟨h1, h2⟩ := h
    subst h2
    obtain ⟨hres, -, hmem⟩ :=
      processSheets_spec cfg st.old_excel st.new_excel o nw res' hnd hps
    exact ⟨hres, hmem⟩

def xC1st : CompareState :=
  ⟨[("A", fromRecords ["id", "val"] [["1", "a"]]),
    ("B", fromRecords ["id", "val"] [["1", "b"]])],
   [("B", fromRecords ["id", "val"] [["1", "b2"]]),
    ("A", fromRecords ["id", "val"] [["1", "a2"]])]⟩

def xC1st2 : CompareState :=
  ⟨[("A", ⟨["val"], [("1", ["a"])]⟩), ("B", ⟨["val"], [("1", ["b"])]⟩)],
   [("B", ⟨["val"], [("1", ["b2"])]⟩), ("A", ⟨["val"], [("1", ["a2"])]⟩)]⟩

def xC1res : List (String × SheetDiff) :=
  [("A", ⟨⟨[], ["val"], [("1", [], [("a", "a2")])]⟩, ⟨["val"], []⟩, ⟨["val"], []⟩⟩),
   ("B", ⟨⟨[], ["val"], [("1", [], [("b", "b2")])]⟩, ⟨["val"], []⟩, ⟨["val"], []⟩⟩)]

def xC1stTrunc : CompareState :=
  ⟨[("A", fromRecords ["id", "val"] [["1", "a"]]),
    ("B", fromRecords ["id", "val"] [["1", "b"]])],
   [("A", fromRecords ["id", "val"] [["1", "a2"]])]⟩

/-- Counterexample to C1 as stated.  First conjunct: with the new workbook's
sheets reordered (["B", "A"] against old ["A", "B"]), old sheet "A" (1st) is
compared against new sheet "A" (2nd, value "a2"), not against the 1st new
sheet "B" (value "b2") — the changed cell for sheet "A" reads ("a", "a2"),
so pairing is by name, not by position.  Second conjunct: with sheet counts
2 vs 1 the comparison raises `KeyError` on the missing name "B" instead of
truncating to the shorter workbook. -/
theorem claim_C1_cex :
    get_excel_diff cfgPlain xC1st = Except.ok (xC1st2, xC1res) ∧
    get_excel_diff cfgPlain xC1stTrunc = Except.error "KeyError: B" :=
  ⟨rfl, rfl⟩

def wC1st : CompareState :=
  ⟨[("S", fromRecords ["id", "val"] [["1", "a"]])],
   [("S", fromRecords ["id", "val"] [["1", "a"]])]⟩

def wC1res : List (String × SheetDiff) :=
  [("S", ⟨⟨[], [], []⟩, ⟨["val"], []⟩, ⟨["val"], []⟩⟩)]

/-- Witness for the amended C1 at a one-sheet pair of workbooks. -/
theorem claim_C1_witness :
    wC1res.map Prod.fst = wC1st.old_excel.map Prod.fst ∧
    ∀ nm dfO, (nm, dfO) ∈ wC1st.old_excel → ∃ dfN out,
      lookupSheet wC1st.new_excel nm = some dfN ∧
      processOneSheet cfgPlain dfO dfN = Except.ok out ∧ (nm, out.2.2) ∈ wC1res :=
  claim_C1 cfgPlain wC1st
    ⟨[("S", ⟨["val"], [("1", ["a"])]⟩)], [("S", ⟨["val"], [("1", ["a"])]⟩)]⟩
    wC1res (by decide) rfl

/-- Claim C9: `get_excel_diff` mutates the tables stored on the object, in
both `self.old_excel` and `self.new_excel`.  With an explicit key column
configured, for every sheet of the old workbook the stored old frame and
the stored (same-named) new frame have both lost the key column — it was
moved into the index by `set_index` — and every ignored column, and their
remaining column sets coincide (the columns not common to the pair were
removed from both).  Sheet names are preserved in both workbooks.
Consequently a second call on the resulting state fails: the key column no
longer exists as a column, so `set_index` raises `KeyError`. -/
theorem claim_C9 (cfg : Config) (st st2 : CompareState)
    (res : List (String × SheetDiff))
    (hidx : cfg.index_name ≠ "_index_") (hne : st.old_excel ≠ [])
    (hnd : (st.old_excel.map Prod.fst).Nodup)
    (h : get_excel_diff cfg st = Except.ok (st2, res)) :
    st2.old_excel.map Prod.fst = st.old_excel.map Prod.fst ∧
    st2.new_excel.map Prod.fst = st.new_excel.map Prod.fst ∧
    (∀ nm, nm ∈ st.old_excel.map Prod.fst → ∃ dfo2 dfn2,
      (nm, dfo2) ∈ st2.old_excel ∧ (nm, dfn2) ∈ st2.new_excel ∧
      cfg.index_name ∉ dfo2.cols ∧ cfg.index_name ∉ dfn2.cols ∧
      (∀ c ∈ dfo2.cols, c ∉ cfg.ignored_cols) ∧
      (∀ c ∈ dfn2.cols, c ∉ cfg.ignored_cols) ∧
      (∀ c, c ∈ dfo2.cols ↔ c ∈ dfn2.cols)) ∧
    ∃ e, get_excel_diff cfg st2 = Except.error e := by
  rw [get_excel_diff] at h
  split at h
  · exact Except.noConfusion h
  · rename_i o nw res' hps
    simp only [Except.ok.injEq, Prod.mk.injEq] at h
    obtain ⟨h1, h2⟩ := h
    subst h2
    obtain ⟨holdn, hnewn, -, hold, hpairs⟩ :=
      processSheets_mutation cfg st.old_excel st.new_excel o nw res' hnd hps
    have hso : st2.old_excel = o := by rw [← h1]
    have hsn : st2.new_excel = nw := by rw [← h1]
    refine ⟨by rw [hso]; exact holdn, by rw [hsn]; exact hnewn, ?_, ?_⟩
    · intro nm hnm
      obtain ⟨dfo2, dfn2, hmo, hmn, hkey, hig1, hig2, hsym⟩ := hpairs nm hnm
      exact ⟨dfo2, dfn2, by rw [hso]; exact hmo, by rw [hsn]; exact hmn,
        (hkey hidx).1, (hkey hidx).2, hig1, hig2, hsym⟩
    · cases ho : o with
      | nil =>
        rw [ho] at holdn
        cases hst : st.old_excel with
        | nil => exact absurd hst hne
        | cons q qs =>
          rw [hst] at holdn
          simp at holdn
      | cons p0 o' =>
        obtain ⟨n0, d0⟩ := p0
        have hd0 : cfg.index_name ∉ d0.cols := by
          have := hold (n0, d0) (by rw [ho]; exact List.mem_cons_self _ _)
          exact this.1 hidx
        have hsi : set_index d0 cfg.index_name
            = Except.error ("KeyError: " ++ cfg.index_name) := by
          rw [set_index, if_neg hd0]
        refine ⟨"KeyError: " ++ cfg.index_name, ?_⟩
        rw [get_excel_diff, hso, ho]
        simp only [processSheets, if_neg hidx, hsi]

end ExcelCompare

namespace ExcelCompare

def wC9st : CompareState :=
  ⟨[("A", fromRecords ["id", "val"] [["1", "a"]])],
   [("A", fromRecords ["id", "val"] [["1", "b"]])]⟩

def wC9st2 : CompareState :=
  ⟨[("A", ⟨["val"], [("1", ["a"])]⟩)], [("A", ⟨["val"], [("1", ["b"])]⟩)]⟩

def wC9res : List (String × SheetDiff) :=
  [("A", ⟨⟨[], ["val"], [("1", [], [("a", "b")])]⟩, ⟨["val"], []⟩, ⟨["val"], []⟩⟩)]

/-- Witness for C9: one call with key column "id" leaves a state whose
stored old and new frames have both lost the "id" column, with equal
remaining column sets, and a second call on it fails. -/
theorem claim_C9_witness :
    wC9st2.old_excel.map Prod.fst = wC9st.old_excel.map Prod.fst ∧
    wC9st2.new_excel.map Prod.fst = wC9st.new_excel.map Prod.fst ∧
    (∀ nm, nm ∈ wC9st.old_excel.map Prod.fst → ∃ dfo2 dfn2,
      (nm, dfo2) ∈ wC9st2.old_excel ∧ (nm, dfn2) ∈ wC9st2.new_excel ∧
      cfgPlain.index_name ∉ dfo2.cols ∧ cfgPlain.index_name ∉ dfn2.cols ∧
      (∀ c ∈ dfo2.cols, c ∉ cfgPlain.ignored_cols) ∧
      (∀ c ∈ dfn2.cols, c ∉ cfgPlain.ignored_cols) ∧
      (∀ c, c ∈ dfo2.cols ↔ c ∈ dfn2.cols)) ∧
    ∃ e, get_excel_diff cfgPlain wC9st2 = Except.error e :=
  claim_C9 cfgPlain wC9st wC9st2 wC9res (by decide) (by decide) (by decide) rfl

end ExcelCompare
